import Mathlib

/-!
Verification of the CUinSpace simulated-flight core against its design
specification.

The C sources are shallowly embedded: machine `int` values become `Int`
(the quantities involved stay far below any overflow bound), C pointers to
`Resource` objects become indices (`Nat`) into a pool `List Resource`
(with `none` playing the role of `NULL`), and the retry loops of
`system_run`, which the C program terminates only through actions of other
threads, take an explicit fuel argument.  The per-cycle semantics is
sequential: an actor's `mode` is constant during one cycle, matching the
single-writer / single-reader design of the mode field.
-/

set_option maxHeartbeats 1000000

namespace CUinSpace

/-! ### Constants from defs.h -/

def MODE_TERMINATE : Nat := 0
def MODE_DISABLED  : Nat := 1
def MODE_SLOW      : Nat := 2
def MODE_STANDARD  : Nat := 3
def MODE_FAST      : Nat := 4

def PRIORITY_HIGH : Nat := 0xF000
def PRIORITY_MED  : Nat := 0xA000
def PRIORITY_LOW  : Nat := 0x8000
def PRIORITY_IGN  : Nat := 0x0000

def EVENT_OK           : Nat := PRIORITY_IGN  ||| 0x0000
def EVENT_LOW          : Nat := PRIORITY_MED  ||| 0x0001
def EVENT_INSUFFICIENT : Nat := PRIORITY_HIGH ||| 0x0002
def EVENT_CAPACITY     : Nat := PRIORITY_MED  ||| 0x0003
def EVENT_HIGH         : Nat := PRIORITY_MED  ||| 0x0004
def EVENT_PRODUCED     : Nat := PRIORITY_IGN  ||| 0x0010

def PARAM_RESOURCE_LOW  : Int := 2
def PARAM_RESOURCE_HIGH : Int := 5

/-! ### Resources (resource.c)

A `Resource` is the C struct without its semaphore; both transfer
operations there are single atomic read-modify-write blocks, so each call
is one state transition of the resource. -/

structure Resource where
  name : String
  amount : Int
  max_capacity : Int
deriving Repr, DecidableEq

/-- `resource_transfer_into` (resource.c, lines 65-77).  Adds as much of
`amount` as capacity allows; returns the updated resource and the residual
left in the caller's `*amount`. -/
def resource_transfer_into (resource : Resource) (amount : Int) : Resource × Int :=
  let remaining_capacity := resource.max_capacity - resource.amount
  let amount_to_transfer := if remaining_capacity ≥ amount then amount else remaining_capacity
  ({ resource with amount := resource.amount + amount_to_transfer },
    amount - amount_to_transfer)

/-- `resource_transfer_from` (resource.c, lines 85-96).  Removes as much of
`amount` as the stock allows; returns the updated resource and the residual
left in the caller's `*amount`. -/
def resource_transfer_from (resource : Resource) (amount : Int) : Resource × Int :=
  let amount_to_transfer := if resource.amount < amount then resource.amount else amount
  ({ resource with amount := resource.amount - amount_to_transfer },
    amount - amount_to_transfer)

/-! ### Events and the event queue (event.c)

`Event.system` and `Event.resource` are the C pointer fields; a resource
pointer is an index into the shared pool, `none` standing for `NULL`. -/

structure Event where
  system : Nat
  resource : Option Nat
  status : Nat
  priority : Nat
deriving Repr, DecidableEq

/-- `event_init` (event.c, lines 22-27): the priority is the high byte of
the status word. -/
def event_init (system : Nat) (resource : Option Nat) (status : Nat) : Event :=
  { system := system, resource := resource, status := status,
    priority := status &&& 0xFF00 }

/-- `event_queue_push` (event.c, lines 75-123).  The queue is the linked
list from head to tail; the new event is inserted after every node whose
priority is `≥` its own, i.e. before the first strictly-lower-priority
node. -/
def event_queue_push (queue : List Event) (event : Event) : List Event :=
  match queue with
  | [] => [event]
  | current :: rest =>
    if current.priority ≥ event.priority then
      current :: event_queue_push rest event
    else
      event :: current :: rest

/-- `event_queue_pop` (event.c, lines 134-163).  Returns the int result
(1 = popped, 0 = empty), the popped event, and the remaining queue; an
empty queue is left unchanged. -/
def event_queue_pop (queue : List Event) : Nat × Option Event × List Event :=
  match queue with
  | [] => (0, none, queue)
  | e :: rest => (1, some e, rest)

/-! Ghost instrumentation for the ordering contract: every pushed event is
tagged with its push sequence number.  `pushTagged` performs exactly the
insertion of `event_queue_push` on tagged events (projecting the tags away
recovers `event_queue_push`, proved below as `pushTagged_map_fst`). -/

def pushTagged (queue : List (Event × Nat)) (e : Event × Nat) : List (Event × Nat) :=
  match queue with
  | [] => [e]
  | current :: rest =>
    if current.1.priority ≥ e.1.priority then
      current :: pushTagged rest e
    else
      e :: current :: rest

/-- One operation on the shared queue: a push of a given event, or a pop. -/
inductive QOp where
  | push (e : Event)
  | pop
deriving Repr, DecidableEq

/-- Runs a sequence of queue operations through the source functions,
starting from a given queue; a pop on the empty queue leaves it unchanged
(`event_queue_pop` returns 0 there). -/
def runQueue : List QOp → List Event → List Event
  | [], q => q
  | QOp.push e :: ops, q => runQueue ops (event_queue_push q e)
  | QOp.pop :: ops, q => runQueue ops (event_queue_pop q).2.2

/-- Ghost run: same operations, but each pushed event is tagged with the
number of pushes that happened before it. -/
def runTagged : List QOp → Nat → List (Event × Nat) → List (Event × Nat) × Nat
  | [], n, q => (q, n)
  | QOp.push e :: ops, n, q => runTagged ops (n + 1) (pushTagged q (e, n))
  | QOp.pop :: ops, n, q =>
    runTagged ops n (match q with | [] => [] | _ :: rest => rest)

/-- The intended strict order on queue entries: strictly higher priority
first, FIFO (earlier sequence number first) within a priority. -/
def qrel (a b : Event × Nat) : Prop :=
  b.1.priority < a.1.priority ∨ (a.1.priority = b.1.priority ∧ a.2 < b.2)

/-- Queue invariant: entries pairwise ordered by `qrel`, and every tag is
below the next sequence number. -/
def QInv (q : List (Event × Nat)) (n : Nat) : Prop :=
  q.Pairwise qrel ∧ ∀ x ∈ q, x.2 < n

/-! ### Systems and recipes (defs.h, system.c) -/

structure Recipe where
  input : Option Nat
  output : Option Nat
  input_amount : Int
  output_amount : Int
  processing_time : Int
deriving Repr, DecidableEq

/-- The C `System` struct (renamed: `System` is a core Lean namespace);
the shared queue pointer is left out, event emission being returned
explicitly by the cycle functions below. -/
structure SystemC where
  name : String
  recipe : Recipe
  mode : Nat
deriving Repr, DecidableEq

/-- `recipe_init` (resource.c, lines 109-115). -/
def recipe_init (input output : Option Nat) (input_amount output_amount processing_time : Int) :
    Recipe :=
  { input := input, output := output, input_amount := input_amount,
    output_amount := output_amount, processing_time := processing_time }

/-- `system_create` (system.c, lines 27-45): a fresh system starts in
`MODE_STANDARD`. -/
def system_create (name : String) (recipe : Recipe) : SystemC :=
  { name := name, recipe := recipe, mode := MODE_STANDARD }

/-- `system_get_mode` (system.c, lines 72-74). -/
def system_get_mode (system : SystemC) : Nat :=
  system.mode

/-- `system_set_mode` (system.c, lines 82-84). -/
def system_set_mode (system : SystemC) (mode : Nat) : SystemC :=
  { system with mode := mode }

/-- `system_simulate_process_time` (system.c, lines 179-192), returning
the adjusted delay passed to `usleep`.  C's `/` on `int` truncates toward
zero, which is `Int.tdiv`. -/
def system_simulate_process_time (system : SystemC) : Int :=
  if system.mode = MODE_SLOW then system.recipe.processing_time * 4
  else if system.mode = MODE_FAST then Int.tdiv system.recipe.processing_time 4
  else system.recipe.processing_time

/-! ### The coordinator (manager.c, compiled into display.c's translation unit)

The manager reads only resource names and system modes and writes only
system modes and the running flag, so its state here is the running flag
plus the list of systems.  `rname` models the dereference
`resource_pointer->name`; quantifying over it covers every memory layout
(including the undefined behaviour of dereferencing `NULL`). -/

/-- The mode decision of one `manager_run` loop iteration (display.c,
lines 253-279): returns the target mode and whether a termination
condition fired (which in the source also clears `simulation_running`). -/
def manager_decide (rname : Option Nat → String) (event : Event) : Nat × Bool :=
  let no_oxygen_flag := event.status = EVENT_INSUFFICIENT ∧ rname event.resource = "Oxygen"
  let distance_reached_flag := event.status = EVENT_CAPACITY ∧ rname event.resource = "Distance"
  let need_more_flag := event.status = EVENT_LOW ∨ event.status = EVENT_INSUFFICIENT
  let need_less_flag := event.status = EVENT_CAPACITY ∨ event.status = EVENT_HIGH
  if no_oxygen_flag then (MODE_TERMINATE, true)
  else if distance_reached_flag then (MODE_TERMINATE, true)
  else if need_more_flag then (MODE_FAST, false)
  else if need_less_flag then (MODE_SLOW, false)
  else (MODE_STANDARD, false)

/-- The per-system update of one `manager_run` loop iteration (display.c,
lines 282-289): systems already in `MODE_TERMINATE` are skipped; otherwise
the mode is assigned when it is `MODE_TERMINATE` (broadcast termination)
or when the system's recipe output is the event's resource (C pointer
equality, here equality of `Option Nat`). -/
def manager_apply_mode (event : Event) (mode : Nat) (sys : SystemC) : SystemC :=
  if system_get_mode sys = MODE_TERMINATE then sys
  else if mode = MODE_TERMINATE ∨ sys.recipe.output = event.resource then
    system_set_mode sys mode
  else sys

/-- One iteration of the `manager_run` while-loop for a popped event
(display.c, lines 247-291).  Returns the new running flag, the updated
systems, and the list of events passed to `display_event` during the
iteration: an event of ignored priority hits `continue` before
`display_event` is reached, so nothing is displayed for it. -/
def manager_step (rname : Option Nat → String) (running : Bool) (systems : List SystemC)
    (event : Event) : Bool × List SystemC × List Event :=
  if event.priority = PRIORITY_IGN then (running, systems, [])
  else
    let dec := manager_decide rname event
    ((if dec.2 then false else running),
     systems.map (manager_apply_mode event dec.1),
     [event])

/-- The `manager_run` drain loop over a sequence of popped events
(display.c, lines 247-292): the while-condition re-checks
`simulation_running`, so no further event is processed once a termination
condition has cleared the flag. -/
def manager_run_events (rname : Option Nat → String) (running : Bool) (systems : List SystemC) :
    List Event → Bool × List SystemC
  | [] => (running, systems)
  | ev :: rest =>
    if running then
      let r := manager_step rname running systems ev
      manager_run_events rname r.1 r.2.1 rest
    else (running, systems)

/-! ### One production cycle (system.c, lines 94-139)

The pool of shared resources is a `List Resource`; a resource pointer is
an index into it.  Each retry loop takes a fuel bound: in the C program
the loops are unbounded and exit only when other threads change the world,
which a sequential embedding cannot do; every theorem below either holds
for all fuels or concerns behaviour before the fuel runs out.  `crashed`
records a dereference of a `NULL` (or dangling) resource pointer — in C,
undefined behaviour inside `resource_transfer_from`/`sem_wait`. -/

structure PhaseOut where
  store : List Resource
  events : List (Option Nat × Nat)
  calls : Nat
  remaining : Int
  crashed : Bool
  stuck : Bool
deriving Repr, DecidableEq

/-- The input phase of `system_run` (system.c, lines 97-111): repeatedly
`resource_transfer_from` the recipe input while the residual is positive
and the mode is not `MODE_TERMINATE`, emitting `EVENT_INSUFFICIENT` after
each short transfer.  `events` are in emission order, `calls` counts the
`resource_transfer_from` calls, `remaining` is the final `amount_to_pull`. -/
def system_run_input_loop (sys : SystemC) (fuel : Nat) (store : List Resource)
    (amount_to_pull : Int) : PhaseOut :=
  if 0 < amount_to_pull ∧ system_get_mode sys ≠ MODE_TERMINATE then
    match fuel with
    | 0 => ⟨store, [], 0, amount_to_pull, false, true⟩
    | fuel + 1 =>
      match sys.recipe.input with
      | none => ⟨store, [], 0, amount_to_pull, true, false⟩
      | some rid =>
        match store.get? rid with
        | none => ⟨store, [], 0, amount_to_pull, true, false⟩
        | some r =>
          let t := resource_transfer_from r amount_to_pull
          let store' := store.set rid t.1
          let evs : List (Option Nat × Nat) :=
            if 0 < t.2 then [(some rid, EVENT_INSUFFICIENT)] else []
          let rest := system_run_input_loop sys fuel store' t.2
          ⟨rest.store, evs ++ rest.events, rest.calls + 1, rest.remaining,
            rest.crashed, rest.stuck⟩
  else ⟨store, [], 0, amount_to_pull, false, false⟩

/-- The output phase of `system_run` (system.c, lines 124-136): while the
recipe has an output, the local output amount is positive and the mode is
not `MODE_TERMINATE`, `resource_transfer_into` the output, emitting
`EVENT_CAPACITY` after each short transfer.  The `NULL`-output test is the
first operand of the C `&&`, so a missing output skips the loop without
any dereference. -/
def system_run_output_loop (sys : SystemC) (fuel : Nat) (store : List Resource)
    (local_output_amount : Int) : PhaseOut :=
  match sys.recipe.output with
  | none => ⟨store, [], 0, local_output_amount, false, false⟩
  | some rid =>
    if 0 < local_output_amount ∧ system_get_mode sys ≠ MODE_TERMINATE then
      match fuel with
      | 0 => ⟨store, [], 0, local_output_amount, false, true⟩
      | fuel + 1 =>
        match store.get? rid with
        | none => ⟨store, [], 0, local_output_amount, true, false⟩
        | some r =>
          let t := resource_transfer_into r local_output_amount
          let store' := store.set rid t.1
          let evs : List (Option Nat × Nat) :=
            if 0 < t.2 then [(some rid, EVENT_CAPACITY)] else []
          let rest := system_run_output_loop sys fuel store' t.2
          ⟨rest.store, evs ++ rest.events, rest.calls + 1, rest.remaining,
            rest.crashed, rest.stuck⟩
    else ⟨store, [], 0, local_output_amount, false, false⟩

/-- `report_recipe_thresholds` (system.c, lines 146-172): skipped when the
recipe has no input; otherwise emits `EVENT_LOW` when the input stock is
at most `input_amount * PARAM_RESOURCE_LOW`, else `EVENT_HIGH` when it is
above `input_amount * PARAM_RESOURCE_HIGH`.  The second component flags a
dangling input index. -/
def report_recipe_thresholds (sys : SystemC) (store : List Resource) :
    List (Option Nat × Nat) × Bool :=
  match sys.recipe.input with
  | none => ([], false)
  | some rid =>
    match store.get? rid with
    | none => ([], true)
    | some r =>
      let low_threshold := sys.recipe.input_amount * PARAM_RESOURCE_LOW
      let high_threshold := sys.recipe.input_amount * PARAM_RESOURCE_HIGH
      let current_amount := r.amount
      if current_amount ≤ low_threshold then ([(some rid, EVENT_LOW)], false)
      else if high_threshold < current_amount then ([(some rid, EVENT_HIGH)], false)
      else ([], false)

/-- The observable outcome of one `system_run` cycle. -/
structure CycleResult where
  store : List Resource
  events : List (Option Nat × Nat)
  fromCalls : Nat
  intoCalls : Nat
  processed : Bool
  delay : Option Int
  crashed : Bool
  stuck : Bool
deriving Repr, DecidableEq

/-- One cycle of `system_run` (system.c, lines 94-139), sequentially: the
input phase with `amount_to_pull` starting at `recipe.input_amount`; if
the pull finished at exactly 0, the processing step (the adjusted delay is
simulated, `local_output_amount` becomes `recipe.output_amount`, and
`EVENT_PRODUCED` is emitted carrying `system->recipe.input` as its
resource pointer — line 118 of the source); then the output phase and
`report_recipe_thresholds`.  A crash or exhausted fuel cuts the cycle at
that point, as the C execution would not get past it. -/
def system_run (fuel : Nat) (sys : SystemC) (store : List Resource) : CycleResult :=
  let inp := system_run_input_loop sys fuel store sys.recipe.input_amount
  if inp.crashed ∨ inp.stuck then
    { store := inp.store, events := inp.events, fromCalls := inp.calls, intoCalls := 0,
      processed := false, delay := none, crashed := inp.crashed, stuck := inp.stuck }
  else
    let processed : Bool := inp.remaining = 0
    let produced_events : List (Option Nat × Nat) :=
      if processed then [(sys.recipe.input, EVENT_PRODUCED)] else []
    let delay : Option Int :=
      if processed then some (system_simulate_process_time sys) else none
    let local_output_amount : Int := if processed then sys.recipe.output_amount else 0
    let outp := system_run_output_loop sys fuel inp.store local_output_amount
    if outp.crashed ∨ outp.stuck then
      { store := outp.store, events := inp.events ++ produced_events ++ outp.events,
        fromCalls := inp.calls, intoCalls := outp.calls,
        processed := processed, delay := delay,
        crashed := outp.crashed, stuck := outp.stuck }
    else
      let thr := report_recipe_thresholds sys outp.store
      { store := outp.store,
        events := inp.events ++ produced_events ++ outp.events ++ thr.1,
        fromCalls := inp.calls, intoCalls := outp.calls,
        processed := processed, delay := delay,
        crashed := thr.2, stuck := false }

/-! ### Concrete fixtures

Resources and systems of the shipped scenario (`load_data` in main.c):
pool indices 0 = Fuel, 1 = Oxygen, 2 = Energy, 3 = Distance. -/

def store0 : List Resource :=
  [⟨"Fuel", 1000, 1000⟩, ⟨"Oxygen", 20, 50⟩, ⟨"Energy", 30, 50⟩, ⟨"Distance", 0, 1000⟩]

def rname0 : Option Nat → String
  | some 0 => "Fuel"
  | some 1 => "Oxygen"
  | some 2 => "Energy"
  | some 3 => "Distance"
  | _ => ""

def propulsion0 : SystemC :=
  system_create "Propulsion" (recipe_init (some 0) (some 3) 5 25 500)

def crew0 : SystemC :=
  system_create "Crew" (recipe_init (some 1) none 5 0 200)

/-- A hypothetical input-less system: `NULL` input pointer, but the
positive `input_amount` every recipe of the data model carries. -/
def noInputSys0 : SystemC :=
  system_create "Beacon" (recipe_init none (some 2) 1 1 100)

/-- A pure producer the way `system_run` actually supports one: `NULL`
input pointer together with `input_amount = 0`. -/
def pureProducer0 : SystemC :=
  system_create "SolarPanel" (recipe_init none (some 2) 0 1 100)

def evLow0 : Event := event_init 0 (some 0) EVENT_LOW
def evIns0 : Event := event_init 1 (some 1) EVENT_INSUFFICIENT
def evHigh0 : Event := event_init 2 (some 0) EVENT_HIGH
def evProduced0 : Event := event_init 0 (some 0) EVENT_PRODUCED
def evCapDist0 : Event := event_init 0 (some 3) EVENT_CAPACITY

/-- The §8 scenario push order: `Low`, `Insufficient`, `High`. -/
def ops0 : List QOp := [QOp.push evLow0, QOp.push evIns0, QOp.push evHigh0]

/-! ### Theorems -/

/-- **C2** — Partial-transfer postconditions: for a resource with
`0 ≤ amount ≤ max_capacity` and a requested amount `≥ 0`, after
`resource_transfer_into` the amount is `≤ max_capacity` (which is
unchanged) and the returned residual plus the amount actually added equals
the request; after `resource_transfer_from` the amount is `≥ 0` and the
returned residual plus the amount actually removed equals the request.
Both embedded operations are total functions, the "never blocks or fails"
part of the contract. -/
theorem resource_transfer_postconditions (r : Resource) (requested : Int)
    (h0 : 0 ≤ r.amount) (h1 : r.amount ≤ r.max_capacity) (hreq : 0 ≤ requested) :
    ((resource_transfer_into r requested).1.amount ≤ r.max_capacity ∧
     (resource_transfer_into r requested).1.max_capacity = r.max_capacity ∧
     (resource_transfer_into r requested).2 +
       ((resource_transfer_into r requested).1.amount - r.amount) = requested) ∧
    (0 ≤ (resource_transfer_from r requested).1.amount ∧
     (resource_transfer_from r requested).2 +
       (r.amount - (resource_transfer_from r requested).1.amount) = requested) := by
  unfold resource_transfer_into resource_transfer_from
  dsimp only
  constructor
  · split_ifs <;> constructor <;> first | omega | (constructor <;> omega)
  · split_ifs <;> constructor <;> omega

/-- Witness for C2 at the concrete resource `⟨"Oxygen", 20, 50⟩` with a
request of 45. -/
theorem resource_transfer_postconditions_check :
    ((resource_transfer_into ⟨"Oxygen", 20, 50⟩ 45).1.amount ≤
       (⟨"Oxygen", 20, 50⟩ : Resource).max_capacity ∧
     (resource_transfer_into ⟨"Oxygen", 20, 50⟩ 45).1.max_capacity =
       (⟨"Oxygen", 20, 50⟩ : Resource).max_capacity ∧
     (resource_transfer_into ⟨"Oxygen", 20, 50⟩ 45).2 +
       ((resource_transfer_into ⟨"Oxygen", 20, 50⟩ 45).1.amount -
         (⟨"Oxygen", 20, 50⟩ : Resource).amount) = 45) ∧
    (0 ≤ (resource_transfer_from ⟨"Oxygen", 20, 50⟩ 45).1.amount ∧
     (resource_transfer_from ⟨"Oxygen", 20, 50⟩ 45).2 +
       ((⟨"Oxygen", 20, 50⟩ : Resource).amount -
         (resource_transfer_from ⟨"Oxygen", 20, 50⟩ 45).1.amount) = 45) :=
  resource_transfer_postconditions ⟨"Oxygen", 20, 50⟩ 45 (by decide) (by decide) (by decide)

/-- **C5** — Resource invariant preservation: under the same
preconditions, `0 ≤ amount ≤ max_capacity` still holds after either
transfer operation.  (In the sources, these two functions are the only
code that writes `resource->amount` after `resource_create`.) -/
theorem resource_invariant_preserved (r : Resource) (requested : Int)
    (h0 : 0 ≤ r.amount) (h1 : r.amount ≤ r.max_capacity) (hreq : 0 ≤ requested) :
    (0 ≤ (resource_transfer_into r requested).1.amount ∧
     (resource_transfer_into r requested).1.amount ≤
       (resource_transfer_into r requested).1.max_capacity) ∧
    (0 ≤ (resource_transfer_from r requested).1.amount ∧
     (resource_transfer_from r requested).1.amount ≤
       (resource_transfer_from r requested).1.max_capacity) := by
  unfold resource_transfer_into resource_transfer_from
  dsimp only
  constructor <;> split_ifs <;> constructor <;> omega

/-- Witness for C5 at the concrete resource `⟨"Distance", 990, 1000⟩` with
a request of 25. -/
theorem resource_invariant_preserved_check :
    (0 ≤ (resource_transfer_into ⟨"Distance", 990, 1000⟩ 25).1.amount ∧
     (resource_transfer_into ⟨"Distance", 990, 1000⟩ 25).1.amount ≤
       (resource_transfer_into ⟨"Distance", 990, 1000⟩ 25).1.max_capacity) ∧
    (0 ≤ (resource_transfer_from ⟨"Distance", 990, 1000⟩ 25).1.amount ∧
     (resource_transfer_from ⟨"Distance", 990, 1000⟩ 25).1.amount ≤
       (resource_transfer_from ⟨"Distance", 990, 1000⟩ 25).1.max_capacity) :=
  resource_invariant_preserved ⟨"Distance", 990, 1000⟩ 25 (by decide) (by decide) (by decide)

/-- **C9** — Deterministic kind-to-priority mapping: `event_init` derives
the priority from the status alone (its high byte), and on the five event
kinds the mapping is exactly Insufficient ↦ HIGH, Low/Capacity/High ↦
MEDIUM, Produced ↦ IGNORED, for every emitting system and resource. -/
theorem event_priority_mapping (sys : Nat) (r : Option Nat) (status : Nat) :
    (event_init sys r status).priority = status &&& 0xFF00 ∧
    (event_init sys r EVENT_INSUFFICIENT).priority = PRIORITY_HIGH ∧
    (event_init sys r EVENT_LOW).priority = PRIORITY_MED ∧
    (event_init sys r EVENT_CAPACITY).priority = PRIORITY_MED ∧
    (event_init sys r EVENT_HIGH).priority = PRIORITY_MED ∧
    (event_init sys r EVENT_PRODUCED).priority = PRIORITY_IGN := by
  refine ⟨rfl, ?_, ?_, ?_, ?_, ?_⟩ <;> · show _ &&& (0xFF00 : Nat) = _; decide

/-! ### The event-queue ordering contract (C1) -/

/-- Projecting the ghost tags away from `pushTagged` gives exactly
`event_queue_push`. -/
theorem pushTagged_map_fst (q : List (Event × Nat)) (e : Event × Nat) :
    (pushTagged q e).map Prod.fst = event_queue_push (q.map Prod.fst) e.1 := by
  induction q with
  | nil => rfl
  | cons c rest ih =>
    by_cases h : c.1.priority ≥ e.1.priority <;>
      simp [pushTagged, event_queue_push, h, ih]

/-- Membership in an insertion. -/
theorem mem_pushTagged (q : List (Event × Nat)) (e x : Event × Nat) :
    x ∈ pushTagged q e ↔ x ∈ q ∨ x = e := by
  induction q with
  | nil => simp [pushTagged]
  | cons c rest ih =>
    by_cases h : c.1.priority ≥ e.1.priority
    · simp only [pushTagged, if_pos h, List.mem_cons, ih]
      tauto
    · simp only [pushTagged, if_neg h, List.mem_cons]
      tauto

/-- The source insertion preserves the queue invariant when the new event
is tagged with the current sequence number. -/
theorem pushTagged_inv (q : List (Event × Nat)) (n : Nat) (e : Event)
    (h : QInv q n) : QInv (pushTagged q (e, n)) (n + 1) := by
  induction q with
  | nil =>
    exact ⟨List.pairwise_singleton _ _, by simp [pushTagged]⟩
  | cons c rest ih =>
    obtain ⟨hpair, hbound⟩ := h
    rw [List.pairwise_cons] at hpair
    have hcn : c.2 < n := hbound c (List.mem_cons_self c rest)
    have hrest : QInv rest n :=
      ⟨hpair.2, fun x hx => hbound x (List.mem_cons_of_mem c hx)⟩
    by_cases hif : c.1.priority ≥ e.priority
    · have ihr := ih hrest
      refine ⟨?_, ?_⟩
      · rw [show pushTagged (c :: rest) (e, n) = c :: pushTagged rest (e, n) from by
          simp [pushTagged, hif]]
        rw [List.pairwise_cons]
        refine ⟨fun y hy => ?_, ihr.1⟩
        rcases (mem_pushTagged rest (e, n) y).mp hy with hy' | hy'
        · exact hpair.1 y hy'
        · subst hy'
          rcases lt_or_eq_of_le hif with hlt | heq
          · exact Or.inl hlt
          · exact Or.inr ⟨heq.symm, hcn⟩
      · intro x hx
        rw [show pushTagged (c :: rest) (e, n) = c :: pushTagged rest (e, n) from by
          simp [pushTagged, hif]] at hx
        rcases List.mem_cons.mp hx with hx' | hx'
        · subst hx'; omega
        · exact ihr.2 x hx'
    · have hstep : pushTagged (c :: rest) (e, n) = (e, n) :: c :: rest := by
        simp [pushTagged, hif]
      refine ⟨?_, ?_⟩
      · rw [hstep, List.pairwise_cons]
        refine ⟨fun y hy => ?_, List.pairwise_cons.mpr ⟨hpair.1, hpair.2⟩⟩
        have hce : c.1.priority < e.priority := lt_of_not_le hif
        rcases List.mem_cons.mp hy with hy' | hy'
        · subst hy'; exact Or.inl hce
        · have := hpair.1 y hy'
          rcases this with hlt | ⟨heq, _⟩
          · exact Or.inl (lt_trans hlt hce)
          · exact Or.inl (heq ▸ hce)
      · intro x hx
        rw [hstep] at hx
        rcases List.mem_cons.mp hx with hx' | hx'
        · subst hx'; omega
        · have := hbound x hx'; omega

/-- The ghost run projects to the source run. -/
theorem runTagged_map_fst (ops : List QOp) (n : Nat) (q : List (Event × Nat)) :
    (runTagged ops n q).1.map Prod.fst = runQueue ops (q.map Prod.fst) := by
  induction ops generalizing n q with
  | nil => rfl
  | cons op rest ih =>
    cases op with
    | push e =>
      show (runTagged rest (n + 1) (pushTagged q (e, n))).1.map Prod.fst
        = runQueue rest (event_queue_push (q.map Prod.fst) e)
      rw [show event_queue_push (q.map Prod.fst) e = (pushTagged q (e, n)).map Prod.fst from
        (pushTagged_map_fst q (e, n)).symm]
      exact ih _ _
    | pop =>
      cases q with
      | nil =>
        show (runTagged rest n []).1.map Prod.fst
          = runQueue rest (event_queue_pop ([] : List Event)).2.2
        exact ih _ _
      | cons c cs =>
        show (runTagged rest n cs).1.map Prod.fst
          = runQueue rest (event_queue_pop (c.1 :: cs.map Prod.fst)).2.2
        exact ih _ _

/-- The ghost run preserves the queue invariant. -/
theorem runTagged_inv (ops : List QOp) (n : Nat) (q : List (Event × Nat))
    (h : QInv q n) :
    QInv (runTagged ops n q).1 (runTagged ops n q).2 := by
  induction ops generalizing n q with
  | nil => exact h
  | cons op rest ih =>
    cases op with
    | push e => exact ih _ _ (pushTagged_inv q n e h)
    | pop =>
      cases q with
      | nil => exact ih _ _ ⟨List.Pairwise.nil, by simp⟩
      | cons c cs =>
        exact ih _ _ ⟨h.1.of_cons, fun x hx => h.2 x (List.mem_cons_of_mem c hx)⟩

/-- **C1** — EventQueue ordering contract.  For every sequence of
`event_queue_push` calls interleaved with `event_queue_pop` calls (any
such interleaving is `ops`, and every intermediate pop is the final pop
of a prefix of some `ops`): the ghost-tagged run mirrors the source run
exactly; on the empty queue, pop returns result 0 and leaves the queue
unchanged; otherwise pop returns result 1 with the head event, which has
maximal priority among all enqueued events and, among those of equal
priority, the smallest push sequence number (pushed earliest). -/
theorem event_queue_ordering (ops : List QOp) :
    ((runTagged ops 0 []).1.map Prod.fst = runQueue ops []) ∧
    (runQueue ops [] = [] →
      event_queue_pop (runQueue ops []) = (0, none, runQueue ops [])) ∧
    (∀ te rest, (runTagged ops 0 []).1 = te :: rest →
      (event_queue_pop (runQueue ops [])).1 = 1 ∧
      (event_queue_pop (runQueue ops [])).2.1 = some te.1 ∧
      ∀ x ∈ (runTagged ops 0 []).1,
        x.1.priority ≤ te.1.priority ∧
        (te.1.priority = x.1.priority → te.2 ≤ x.2)) := by
  have hproj : (runTagged ops 0 []).1.map Prod.fst = runQueue ops [] :=
    runTagged_map_fst ops 0 []
  refine ⟨hproj, fun hemp => by rw [hemp]; rfl, fun te rest hq => ?_⟩
  have hrun : runQueue ops [] = te.1 :: rest.map Prod.fst := by
    rw [← hproj, hq]; rfl
  have hinv : QInv (runTagged ops 0 []).1 (runTagged ops 0 []).2 :=
    runTagged_inv ops 0 [] ⟨List.Pairwise.nil, by simp⟩
  rw [hq] at hinv
  have hpair := hinv.1
  rw [List.pairwise_cons] at hpair
  refine ⟨by rw [hrun]; rfl, by rw [hrun]; rfl, fun x hx => ?_⟩
  rw [hq] at hx
  rcases List.mem_cons.mp hx with hx' | hx'
  · subst hx'; exact ⟨le_refl _, fun _ => le_refl _⟩
  · rcases hpair.1 x hx' with hlt | ⟨heq, hseq⟩
    · exact ⟨le_of_lt hlt, fun habs => absurd (habs ▸ hlt) (lt_irrefl _)⟩
    · exact ⟨le_of_eq heq.symm, fun _ => le_of_lt hseq⟩

/-- Witness for C1 on the §8 scenario: pushing `Low`, `Insufficient`,
`High` in that order makes the next pop return the `Insufficient` event
(result 1), which dominates everything enqueued. -/
theorem event_queue_ordering_check :
    (event_queue_pop (runQueue ops0 [])).1 = 1 ∧
    (event_queue_pop (runQueue ops0 [])).2.1 = some evIns0 ∧
    ∀ x ∈ (runTagged ops0 0 []).1,
      x.1.priority ≤ evIns0.priority ∧
      (evIns0.priority = x.1.priority → 1 ≤ x.2) := by
  have h := (event_queue_ordering ops0).2.2 (evIns0, 1)
    [(evLow0, 0), (evHigh0, 2)] (by decide)
  exact ⟨h.1, h.2.1, h.2.2⟩

/-! ### Coordinator theorems (C3, C4, C7) -/

/-- A system already in `MODE_TERMINATE` is skipped by the manager's
update loop. -/
theorem manager_apply_mode_of_terminate (event : Event) (mode : Nat) (s : SystemC)
    (h : s.mode = MODE_TERMINATE) : manager_apply_mode event mode s = s := by
  unfold manager_apply_mode system_get_mode
  rw [if_pos h]

/-- Broadcasting `MODE_TERMINATE` leaves every system terminated. -/
theorem manager_apply_mode_terminate (event : Event) (s : SystemC) :
    (manager_apply_mode event MODE_TERMINATE s).mode = MODE_TERMINATE := by
  unfold manager_apply_mode system_get_mode system_set_mode
  by_cases h : s.mode = MODE_TERMINATE
  · rw [if_pos h]; exact h
  · rw [if_neg h, if_pos (Or.inl rfl)]

/-- For a non-terminating target mode, the manager's per-system update is
exactly: assign the target to the not-yet-terminated systems whose recipe
output is the event's resource, leave everything else unchanged. -/
theorem manager_apply_mode_eq (event : Event) (mode : Nat) (hm : mode ≠ MODE_TERMINATE)
    (s : SystemC) :
    manager_apply_mode event mode s =
      if s.mode ≠ MODE_TERMINATE ∧ s.recipe.output = event.resource then
        { s with mode := mode }
      else s := by
  unfold manager_apply_mode system_get_mode system_set_mode
  by_cases h1 : s.mode = MODE_TERMINATE
  · simp [h1]
  · by_cases h2 : s.recipe.output = event.resource
    · simp [h1, h2]
    · simp [h1, h2, hm]

/-- **C3** — Coordinator decision algorithm, for a popped event whose
priority tier is not IGNORED: the manager terminates (and clears the
running flag) if and only if the event is `Insufficient` for the resource
named "Oxygen" or `Capacity` for the resource named "Distance"; otherwise
the target mode is `Fast` for `Low`/`Insufficient`, `Slow` for
`Capacity`/`High`, `Standard` otherwise.  On termination every system not
already terminated is set to `MODE_TERMINATE`; otherwise the target mode
is assigned to exactly the not-yet-terminated systems whose recipe output
equals the event's resource, all other systems keeping their mode. -/
theorem manager_decision_algorithm (rname : Option Nat → String) (event : Event)
    (running : Bool) (systems : List SystemC)
    (hpr : event.priority ≠ PRIORITY_IGN) :
    ((manager_decide rname event).2 = true ↔
      (event.status = EVENT_INSUFFICIENT ∧ rname event.resource = "Oxygen") ∨
      (event.status = EVENT_CAPACITY ∧ rname event.resource = "Distance")) ∧
    ((manager_decide rname event).2 = true →
      (manager_decide rname event).1 = MODE_TERMINATE) ∧
    ((manager_decide rname event).2 = false →
      (manager_decide rname event).1 =
        (if event.status = EVENT_LOW ∨ event.status = EVENT_INSUFFICIENT then MODE_FAST
         else if event.status = EVENT_CAPACITY ∨ event.status = EVENT_HIGH then MODE_SLOW
         else MODE_STANDARD)) ∧
    ((manager_decide rname event).2 = true →
      (manager_step rname running systems event).1 = false ∧
      ∀ s ∈ (manager_step rname running systems event).2.1, s.mode = MODE_TERMINATE) ∧
    ((manager_decide rname event).2 = false →
      (manager_step rname running systems event).1 = running ∧
      (manager_step rname running systems event).2.1 =
        systems.map (fun s =>
          if s.mode ≠ MODE_TERMINATE ∧ s.recipe.output = event.resource then
            { s with mode := (manager_decide rname event).1 }
          else s)) := by
  by_cases h1 : event.status = EVENT_INSUFFICIENT ∧ rname event.resource = "Oxygen"
  case pos =>
    have hd : manager_decide rname event = (MODE_TERMINATE, true) := by
      simp [manager_decide, h1]
    rw [hd]
    refine ⟨by simp [h1], fun _ => rfl, by simp, fun _ => ?_, by simp⟩
    constructor
    · simp [manager_step, hpr, hd]
    · intro s hs
      simp only [manager_step, if_neg hpr, hd] at hs
      obtain ⟨t, _, rfl⟩ := List.mem_map.mp hs
      exact manager_apply_mode_terminate event t
  case neg =>
  by_cases h2 : event.status = EVENT_CAPACITY ∧ rname event.resource = "Distance"
  case pos =>
    have hd : manager_decide rname event = (MODE_TERMINATE, true) := by
      simp [manager_decide, h1, h2]
    rw [hd]
    refine ⟨by simp [h2], fun _ => rfl, by simp, fun _ => ?_, by simp⟩
    constructor
    · simp [manager_step, hpr, hd]
    · intro s hs
      simp only [manager_step, if_neg hpr, hd] at hs
      obtain ⟨t, _, rfl⟩ := List.mem_map.mp hs
      exact manager_apply_mode_terminate event t
  case neg =>
  have hmap : ∀ mode : Nat, mode ≠ MODE_TERMINATE →
      manager_decide rname event = (mode, false) →
      (manager_step rname running systems event).1 = running ∧
      (manager_step rname running systems event).2.1 =
        systems.map (fun s =>
          if s.mode ≠ MODE_TERMINATE ∧ s.recipe.output = event.resource then
            { s with mode := mode }
          else s) := by
    intro mode hmode hd
    constructor
    · simp [manager_step, hpr, hd]
    · simp only [manager_step, if_neg hpr, hd]
      exact List.map_congr_left fun s _ => manager_apply_mode_eq event mode hmode s
  by_cases h3 : event.status = EVENT_LOW ∨ event.status = EVENT_INSUFFICIENT
  case pos =>
    have hd : manager_decide rname event = (MODE_FAST, false) := by
      simp only [manager_decide]
      rw [if_neg h1, if_neg h2, if_pos h3]
    rw [hd]
    exact ⟨by simp [h1, h2], by simp, fun _ => by rw [if_pos h3],
      by simp, fun _ => hmap MODE_FAST (by decide) hd⟩
  case neg =>
  by_cases h4 : event.status = EVENT_CAPACITY ∨ event.status = EVENT_HIGH
  case pos =>
    have hd : manager_decide rname event = (MODE_SLOW, false) := by
      simp only [manager_decide]
      rw [if_neg h1, if_neg h2, if_neg h3, if_pos h4]
    rw [hd]
    exact ⟨by simp [h1, h2], by simp, fun _ => by rw [if_neg h3, if_pos h4],
      by simp, fun _ => hmap MODE_SLOW (by decide) hd⟩
  case neg =>
    have hd : manager_decide rname event = (MODE_STANDARD, false) := by
      simp only [manager_decide]
      rw [if_neg h1, if_neg h2, if_neg h3, if_neg h4]
    rw [hd]
    exact ⟨by simp [h1, h2], by simp, fun _ => by rw [if_neg h3, if_neg h4],
      by simp, fun _ => hmap MODE_STANDARD (by decide) hd⟩

/-- Witness for C3: a `Capacity` event for the "Distance" resource (the
§8 Oxygen/termination scenario's sibling condition B) terminates the
simulation and sets both shipped systems to `MODE_TERMINATE`. -/
theorem manager_decision_algorithm_check :
    ((manager_decide rname0 evCapDist0).2 = true ↔
      (evCapDist0.status = EVENT_INSUFFICIENT ∧ rname0 evCapDist0.resource = "Oxygen") ∨
      (evCapDist0.status = EVENT_CAPACITY ∧ rname0 evCapDist0.resource = "Distance")) ∧
    (manager_step rname0 true [propulsion0, crew0] evCapDist0).1 = false ∧
    ∀ s ∈ (manager_step rname0 true [propulsion0, crew0] evCapDist0).2.1,
      s.mode = MODE_TERMINATE := by
  have h := manager_decision_algorithm rname0 evCapDist0 true [propulsion0, crew0] (by decide)
  have ht := h.2.2.2.1 (by decide)
  exact ⟨h.1, ht.1, ht.2⟩

/-- One manager iteration keeps the number of systems. -/
theorem manager_step_length (rname : Option Nat → String) (running : Bool)
    (systems : List SystemC) (event : Event) :
    (manager_step rname running systems event).2.1.length = systems.length := by
  unfold manager_step
  split
  · rfl
  · exact List.length_map _ _

/-- One manager iteration never moves a system out of `MODE_TERMINATE`. -/
theorem manager_step_terminate (rname : Option Nat → String) (running : Bool)
    (systems : List SystemC) (event : Event) (i : Nat) (hi : i < systems.length)
    (hterm : systems[i].mode = MODE_TERMINATE) :
    ∃ hj : i < (manager_step rname running systems event).2.1.length,
      ((manager_step rname running systems event).2.1)[i].mode = MODE_TERMINATE := by
  have hlen := manager_step_length rname running systems event
  refine ⟨by omega, ?_⟩
  unfold manager_step
  split
  · exact hterm
  · rw [List.getElem_map]
    rw [manager_apply_mode_of_terminate _ _ _ hterm]
    exact hterm

/-- **C4** — Terminate is absorbing: a system whose mode is
`MODE_TERMINATE` keeps that mode across every further `manager_run`
iteration, whatever later events arrive, and the `system_thread` loop
condition `system_get_mode(system) != MODE_TERMINATE` is then false, so
the actor's run loop exits at its next mode check. -/
theorem terminate_absorbing (rname : Option Nat → String) (running : Bool)
    (systems : List SystemC) (events : List Event) (i : Nat)
    (hi : i < systems.length)
    (hterm : systems[i].mode = MODE_TERMINATE) :
    ∃ hj : i < (manager_run_events rname running systems events).2.length,
      ((manager_run_events rname running systems events).2)[i].mode = MODE_TERMINATE ∧
      ¬ (system_get_mode ((manager_run_events rname running systems events).2)[i] ≠
          MODE_TERMINATE) := by
  induction events generalizing running systems with
  | nil => exact ⟨hi, hterm, fun hne => hne hterm⟩
  | cons ev rest ih =>
    show ∃ hj : i < (manager_run_events rname running systems (ev :: rest)).2.length, _
    rw [manager_run_events]
    by_cases hr : running = true
    · rw [if_pos hr]
      obtain ⟨hj, hstep⟩ := manager_step_terminate rname running systems ev i hi hterm
      exact ih _ _ hj hstep
    · rw [if_neg hr]
      exact ⟨hi, hterm, by simp [system_get_mode, hterm]⟩

/-- Witness for C4: the already-terminated Crew system stays terminated
while the manager processes a `Low` and then a `Capacity`-on-Distance
event (the latter terminating the whole simulation). -/
theorem terminate_absorbing_check :
    ∃ hj : 1 < (manager_run_events rname0 true
        [propulsion0, system_set_mode crew0 MODE_TERMINATE]
        [evLow0, evCapDist0]).2.length,
      ((manager_run_events rname0 true
        [propulsion0, system_set_mode crew0 MODE_TERMINATE]
        [evLow0, evCapDist0]).2)[1].mode = MODE_TERMINATE ∧
      ¬ (system_get_mode ((manager_run_events rname0 true
        [propulsion0, system_set_mode crew0 MODE_TERMINATE]
        [evLow0, evCapDist0]).2)[1] ≠ MODE_TERMINATE) :=
  terminate_absorbing rname0 true
    [propulsion0, system_set_mode crew0 MODE_TERMINATE]
    [evLow0, evCapDist0] 1 (by decide) (by decide)

/-- Counterexample to **C7** as stated: the `Produced` event has ignored
priority, and the manager iteration for it passes nothing to
`display_event` — the `continue` at display.c line 249 runs before the
`display_event` call at line 251 — while the claim says the event is
still forwarded for logging.  Modes and the running flag are indeed
untouched. -/
theorem ignored_event_not_displayed :
    evProduced0.priority = PRIORITY_IGN ∧
    manager_step rname0 true [propulsion0, crew0] evProduced0 =
      (true, [propulsion0, crew0], []) ∧
    evProduced0 ∉ (manager_step rname0 true [propulsion0, crew0] evProduced0).2.2 := by
  refine ⟨by decide, by decide, by decide⟩

/-- **C7 (amended)** — IGNORED events act on nothing and are *not*
displayed: an event whose priority tier is IGNORED is discarded without
changing any system's mode or the running flag, and without being
forwarded to `display_event` (the manager only displays events of
non-ignored priority; `display_simulation_state`, called before the drain
loop, renders resource levels but no event). -/
theorem ignored_event_no_effect (rname : Option Nat → String) (running : Bool)
    (systems : List SystemC) (event : Event)
    (hpr : event.priority = PRIORITY_IGN) :
    manager_step rname running systems event = (running, systems, []) := by
  unfold manager_step
  rw [if_pos hpr]

/-- Witness for C7 (amended) at the concrete `Produced` event of the
shipped scenario. -/
theorem ignored_event_no_effect_check :
    manager_step rname0 true [propulsion0, crew0] evProduced0 =
      (true, [propulsion0, crew0], []) :=
  ignored_event_no_effect rname0 true [propulsion0, crew0] evProduced0 (by decide)

/-! ### Cycle lemmas (C6, C8, C10)

First, one unfolding equation per execution case of the two retry loops. -/

theorem input_loop_guard_false (sys : SystemC) (fuel : Nat) (store : List Resource) (a : Int)
    (h : ¬(0 < a ∧ system_get_mode sys ≠ MODE_TERMINATE)) :
    system_run_input_loop sys fuel store a = ⟨store, [], 0, a, false, false⟩ := by
  rw [system_run_input_loop.eq_def, if_neg h]

theorem input_loop_fuel_zero (sys : SystemC) (store : List Resource) (a : Int)
    (h : 0 < a ∧ system_get_mode sys ≠ MODE_TERMINATE) :
    system_run_input_loop sys 0 store a = ⟨store, [], 0, a, false, true⟩ := by
  rw [system_run_input_loop.eq_def, if_pos h]

theorem input_loop_none (sys : SystemC) (fuel : Nat) (store : List Resource) (a : Int)
    (h : 0 < a ∧ system_get_mode sys ≠ MODE_TERMINATE) (hin : sys.recipe.input = none) :
    system_run_input_loop sys (fuel + 1) store a = ⟨store, [], 0, a, true, false⟩ := by
  rw [system_run_input_loop.eq_def, if_pos h]
  simp only [hin]

theorem input_loop_get_none (sys : SystemC) (fuel : Nat) (store : List Resource) (a : Int)
    (h : 0 < a ∧ system_get_mode sys ≠ MODE_TERMINATE)
    (rid : Nat) (hin : sys.recipe.input = some rid) (hr : store.get? rid = none) :
    system_run_input_loop sys (fuel + 1) store a = ⟨store, [], 0, a, true, false⟩ := by
  rw [system_run_input_loop.eq_def, if_pos h]
  simp only [hin, hr]

theorem input_loop_step (sys : SystemC) (fuel : Nat) (store : List Resource) (a : Int)
    (h : 0 < a ∧ system_get_mode sys ≠ MODE_TERMINATE)
    (rid : Nat) (hin : sys.recipe.input = some rid)
    (r : Resource) (hr : store.get? rid = some r) :
    system_run_input_loop sys (fuel + 1) store a =
      (let t := resource_transfer_from r a
       let rest := system_run_input_loop sys fuel (store.set rid t.1) t.2
       ⟨rest.store, (if 0 < t.2 then [(some rid, EVENT_INSUFFICIENT)] else []) ++ rest.events,
         rest.calls + 1, rest.remaining, rest.crashed, rest.stuck⟩) := by
  rw [system_run_input_loop.eq_def, if_pos h]
  simp only [hin, hr]

theorem output_loop_none (sys : SystemC) (fuel : Nat) (store : List Resource) (a : Int)
    (hout : sys.recipe.output = none) :
    system_run_output_loop sys fuel store a = ⟨store, [], 0, a, false, false⟩ := by
  rw [system_run_output_loop.eq_def]
  simp only [hout]

theorem output_loop_guard_false (sys : SystemC) (fuel : Nat) (store : List Resource) (a : Int)
    (rid : Nat) (hout : sys.recipe.output = some rid)
    (h : ¬(0 < a ∧ system_get_mode sys ≠ MODE_TERMINATE)) :
    system_run_output_loop sys fuel store a = ⟨store, [], 0, a, false, false⟩ := by
  rw [system_run_output_loop.eq_def]
  simp only [hout, if_neg h]

theorem output_loop_fuel_zero (sys : SystemC) (store : List Resource) (a : Int)
    (rid : Nat) (hout : sys.recipe.output = some rid)
    (h : 0 < a ∧ system_get_mode sys ≠ MODE_TERMINATE) :
    system_run_output_loop sys 0 store a = ⟨store, [], 0, a, false, true⟩ := by
  rw [system_run_output_loop.eq_def]
  simp only [hout, if_pos h]

theorem output_loop_get_none (sys : SystemC) (fuel : Nat) (store : List Resource) (a : Int)
    (rid : Nat) (hout : sys.recipe.output = some rid)
    (h : 0 < a ∧ system_get_mode sys ≠ MODE_TERMINATE) (hr : store.get? rid = none) :
    system_run_output_loop sys (fuel + 1) store a = ⟨store, [], 0, a, true, false⟩ := by
  rw [system_run_output_loop.eq_def]
  simp only [hout, if_pos h, hr]

theorem output_loop_step (sys : SystemC) (fuel : Nat) (store : List Resource) (a : Int)
    (rid : Nat) (hout : sys.recipe.output = some rid)
    (h : 0 < a ∧ system_get_mode sys ≠ MODE_TERMINATE)
    (r : Resource) (hr : store.get? rid = some r) :
    system_run_output_loop sys (fuel + 1) store a =
      (let t := resource_transfer_into r a
       let rest := system_run_output_loop sys fuel (store.set rid t.1) t.2
       ⟨rest.store, (if 0 < t.2 then [(some rid, EVENT_CAPACITY)] else []) ++ rest.events,
         rest.calls + 1, rest.remaining, rest.crashed, rest.stuck⟩) := by
  rw [system_run_output_loop.eq_def]
  simp only [hout, if_pos h, hr]

/-- Every event the input phase emits is an `EVENT_INSUFFICIENT` for the
recipe's input resource. -/
theorem input_loop_events (sys : SystemC) (fuel : Nat) :
    ∀ (store : List Resource) (a : Int),
      ∀ e ∈ (system_run_input_loop sys fuel store a).events,
        e.1 = sys.recipe.input ∧ e.2 = EVENT_INSUFFICIENT := by
  induction fuel with
  | zero =>
    intro store a e he
    by_cases h : 0 < a ∧ system_get_mode sys ≠ MODE_TERMINATE
    · rw [input_loop_fuel_zero sys store a h] at he
      exact absurd he (List.not_mem_nil e)
    · rw [input_loop_guard_false sys 0 store a h] at he
      exact absurd he (List.not_mem_nil e)
  | succ n ih =>
    intro store a e he
    by_cases h : 0 < a ∧ system_get_mode sys ≠ MODE_TERMINATE
    · rcases hin : sys.recipe.input with _ | rid
      · rw [input_loop_none sys n store a h hin] at he
        exact absurd he (List.not_mem_nil e)
      · rcases hr : store.get? rid with _ | r
        · rw [input_loop_get_none sys n store a h rid hin hr] at he
          exact absurd he (List.not_mem_nil e)
        · rw [input_loop_step sys n store a h rid hin r hr] at he
          simp only [List.mem_append] at he
          rcases he with he | he
          · by_cases he' : (0 : Int) < (resource_transfer_from r a).2
            · rw [if_pos he'] at he
              rw [List.mem_singleton] at he
              subst he
              exact ⟨rfl, rfl⟩
            · rw [if_neg he'] at he
              exact absurd he (List.not_mem_nil e)
          · have hp := ih _ _ e he
            rw [hin] at hp
            exact hp
    · rw [input_loop_guard_false sys (n + 1) store a h] at he
      exact absurd he (List.not_mem_nil e)

/-- Every event the output phase emits is an `EVENT_CAPACITY` for the
recipe's output resource. -/
theorem output_loop_events (sys : SystemC) (fuel : Nat) :
    ∀ (store : List Resource) (a : Int),
      ∀ e ∈ (system_run_output_loop sys fuel store a).events,
        e.1 = sys.recipe.output ∧ e.2 = EVENT_CAPACITY := by
  induction fuel with
  | zero =>
    intro store a e he
    rcases hout : sys.recipe.output with _ | rid
    · rw [output_loop_none sys 0 store a hout] at he
      exact absurd he (List.not_mem_nil e)
    · by_cases h : 0 < a ∧ system_get_mode sys ≠ MODE_TERMINATE
      · rw [output_loop_fuel_zero sys store a rid hout h] at he
        exact absurd he (List.not_mem_nil e)
      · rw [output_loop_guard_false sys 0 store a rid hout h] at he
        exact absurd he (List.not_mem_nil e)
  | succ n ih =>
    intro store a e he
    rcases hout : sys.recipe.output with _ | rid
    · rw [output_loop_none sys (n + 1) store a hout] at he
      exact absurd he (List.not_mem_nil e)
    · by_cases h : 0 < a ∧ system_get_mode sys ≠ MODE_TERMINATE
      · rcases hr : store.get? rid with _ | r
        · rw [output_loop_get_none sys n store a rid hout h hr] at he
          exact absurd he (List.not_mem_nil e)
        · rw [output_loop_step sys n store a rid hout h r hr] at he
          simp only [List.mem_append] at he
          rcases he with he | he
          · by_cases he' : (0 : Int) < (resource_transfer_into r a).2
            · rw [if_pos he'] at he
              rw [List.mem_singleton] at he
              subst he
              exact ⟨rfl, rfl⟩
            · rw [if_neg he'] at he
              exact absurd he (List.not_mem_nil e)
          · have hp := ih _ _ e he
            rw [hout] at hp
            exact hp
      · rw [output_loop_guard_false sys (n + 1) store a rid hout h] at he
        exact absurd he (List.not_mem_nil e)

/-- Every event the threshold report emits is an `EVENT_LOW` or
`EVENT_HIGH` for the recipe's input resource. -/
theorem report_recipe_thresholds_events (sys : SystemC) (store : List Resource) :
    ∀ e ∈ (report_recipe_thresholds sys store).1,
      e.1 = sys.recipe.input ∧ (e.2 = EVENT_LOW ∨ e.2 = EVENT_HIGH) := by
  intro e he
  unfold report_recipe_thresholds at he
  rcases hin : sys.recipe.input with _ | rid <;> simp only [hin] at he
  · exact absurd he (List.not_mem_nil e)
  · rcases hr : store.get? rid with _ | r <;> simp only [hr] at he
    · exact absurd he (List.not_mem_nil e)
    · split_ifs at he with h1 h2
      · rw [List.mem_singleton] at he; subst he; exact ⟨rfl, Or.inl rfl⟩
      · rw [List.mem_singleton] at he; subst he; exact ⟨rfl, Or.inr rfl⟩
      · exact absurd he (List.not_mem_nil e)

/-- **C10** — Every `Produced` event emitted by a `system_run` cycle
carries the recipe's *input* resource pointer as its resource field
(system.c line 118 passes `system->recipe.input`), so whenever the input
and output differ, a `Produced` event never references the resource that
was actually produced. -/
theorem produced_event_uses_input_resource (fuel : Nat) (sys : SystemC) (store : List Resource) :
    ∀ e ∈ (system_run fuel sys store).events, e.2 = EVENT_PRODUCED →
      e.1 = sys.recipe.input ∧
      (sys.recipe.input ≠ sys.recipe.output → e.1 ≠ sys.recipe.output) := by
  intro e he hst
  have hins : ∀ x : Option Nat × Nat,
      x.1 = sys.recipe.input ∧ x.2 = EVENT_INSUFFICIENT → x = e → False := by
    rintro x ⟨_, h2⟩ rfl
    rw [hst] at h2
    exact absurd h2 (by decide)
  have hcap : ∀ x : Option Nat × Nat,
      x.1 = sys.recipe.output ∧ x.2 = EVENT_CAPACITY → x = e → False := by
    rintro x ⟨_, h2⟩ rfl
    rw [hst] at h2
    exact absurd h2 (by decide)
  have hthr : ∀ x : Option Nat × Nat,
      x.1 = sys.recipe.input ∧ (x.2 = EVENT_LOW ∨ x.2 = EVENT_HIGH) → x = e → False := by
    rintro x ⟨_, h2⟩ rfl
    rw [hst] at h2
    rcases h2 with h2 | h2 <;> exact absurd h2 (by decide)
  have hmain : e.1 = sys.recipe.input := by
    simp only [system_run] at he
    split at he
    · dsimp only at he
      exact absurd rfl (hins e (input_loop_events sys fuel store _ e he))
    · split at he
      · split at he
        · try dsimp only at he
          simp only [List.mem_append, List.mem_singleton] at he
          rcases he with (he | he) | he
          · exact absurd rfl (hins e (input_loop_events sys fuel store _ e he))
          · rw [he]
          · exact absurd rfl (hcap e (output_loop_events sys fuel _ _ e he))
        · try dsimp only at he
          simp only [List.mem_append, List.mem_singleton] at he
          rcases he with ((he | he) | he) | he
          · exact absurd rfl (hins e (input_loop_events sys fuel store _ e he))
          · rw [he]
          · exact absurd rfl (hcap e (output_loop_events sys fuel _ _ e he))
          · exact absurd rfl (hthr e (report_recipe_thresholds_events sys _ e he))
      · split at he
        · try dsimp only at he
          simp only [List.mem_append, List.not_mem_nil, or_false] at he
          rcases he with he | he
          · exact absurd rfl (hins e (input_loop_events sys fuel store _ e he))
          · exact absurd rfl (hcap e (output_loop_events sys fuel _ _ e he))
        · try dsimp only at he
          simp only [List.mem_append, List.not_mem_nil, or_false] at he
          rcases he with (he | he) | he
          · exact absurd rfl (hins e (input_loop_events sys fuel store _ e he))
          · exact absurd rfl (hcap e (output_loop_events sys fuel _ _ e he))
          · exact absurd rfl (hthr e (report_recipe_thresholds_events sys _ e he))
  exact ⟨hmain, fun hne => by rw [hmain]; exact hne⟩

/-- Witness for C10: in a cycle of the Propulsion system over the shipped
store, the emitted `Produced` event references the Fuel input (index 0),
not the Distance output. -/
theorem produced_event_uses_input_resource_check :
    ((some 0 : Option Nat), EVENT_PRODUCED).1 = propulsion0.recipe.input ∧
    (propulsion0.recipe.input ≠ propulsion0.recipe.output →
      ((some 0 : Option Nat), EVENT_PRODUCED).1 ≠ propulsion0.recipe.output) :=
  produced_event_uses_input_resource 3 propulsion0 store0
    (some 0, EVENT_PRODUCED) (by decide) (by decide)

/-- Counterexample to **C6** as stated: a system whose recipe has no
input resource (a `NULL` input pointer) but the positive `input_amount`
of the data model does *not* skip the input phase — the loop guard of
system.c line 99 tests only `amount_to_pull > 0`, so the first iteration
passes the `NULL` input straight into `resource_transfer_from` (the
crash marker of the embedding), the cycle never reaches the processing
step, and the "no-input" access is reachable. -/
theorem no_input_recipe_not_skipped :
    noInputSys0.recipe.input = none ∧
    (system_run 5 noInputSys0 store0).crashed = true ∧
    (system_run 5 noInputSys0 store0).processed = false ∧
    (system_run 5 noInputSys0 store0).delay = none := by
  refine ⟨rfl, ?_, ?_, ?_⟩ <;> decide

/-- **C6 (amended)** — The input phase is skipped exactly by the guard
`amount_to_pull > 0`, not by a `NULL`-input test: for every system whose
recipe has `input_amount = 0` (the only way a pure producer avoids the
input phase), a `system_run` cycle performs no `resource_transfer_from`
call, emits no `Insufficient` event, and proceeds directly to the
processing step; a recipe with no input resource but positive
`input_amount` instead enters the loop and dereferences the null input. -/
theorem input_phase_skipped_when_amount_zero (fuel : Nat) (sys : SystemC) (store : List Resource)
    (h : sys.recipe.input_amount = 0) :
    (system_run fuel sys store).fromCalls = 0 ∧
    (∀ e ∈ (system_run fuel sys store).events, e.2 ≠ EVENT_INSUFFICIENT) ∧
    (system_run fuel sys store).processed = true := by
  have hinp0 : system_run_input_loop sys fuel store 0 = ⟨store, [], 0, 0, false, false⟩ :=
    input_loop_guard_false sys fuel store 0 (by simp)
  refine ⟨?_, ?_, ?_⟩
  · simp [system_run, h, hinp0, apply_ite CycleResult.fromCalls]
  · intro e he hst
    simp [system_run, h, hinp0] at he
    split at he
    · rcases List.mem_cons.mp he with he | he
      · rw [he] at hst
        exact absurd hst (show (EVENT_PRODUCED : Nat) ≠ EVENT_INSUFFICIENT from by decide)
      · have hc := (output_loop_events sys fuel _ _ e he).2
        rw [hst] at hc
        exact absurd hc (by decide)
    · rcases List.mem_cons.mp he with he | he
      · rw [he] at hst
        exact absurd hst (show (EVENT_PRODUCED : Nat) ≠ EVENT_INSUFFICIENT from by decide)
      · rcases List.mem_append.mp he with he | he
        · have hc := (output_loop_events sys fuel _ _ e he).2
          rw [hst] at hc
          exact absurd hc (by decide)
        · have hc := (report_recipe_thresholds_events sys _ e he).2
          rw [hst] at hc
          rcases hc with h2 | h2 <;> exact absurd h2 (by decide)
  · simp [system_run, h, hinp0, apply_ite CycleResult.processed]

/-- Witness for C6 (amended) at the concrete pure producer (null input,
`input_amount = 0`). -/
theorem input_phase_skipped_when_amount_zero_check :
    (system_run 4 pureProducer0 store0).fromCalls = 0 ∧
    (∀ e ∈ (system_run 4 pureProducer0 store0).events, e.2 ≠ EVENT_INSUFFICIENT) ∧
    (system_run 4 pureProducer0 store0).processed = true :=
  input_phase_skipped_when_amount_zero 4 pureProducer0 store0 (by decide)

/-! ### C8: delay scaling and unreachability of processing for
Disabled/Terminate actors -/

/-- The manager's decision never selects `MODE_DISABLED`. -/
theorem decide_ne_disabled (rname : Option Nat → String) (ev : Event) :
    (manager_decide rname ev).1 ≠ MODE_DISABLED := by
  unfold manager_decide
  dsimp only
  split_ifs <;> decide

/-- The per-system update cannot introduce `MODE_DISABLED`. -/
theorem apply_mode_ne_disabled (ev : Event) (mode : Nat) (s : SystemC)
    (hm : mode ≠ MODE_DISABLED) (hs : s.mode ≠ MODE_DISABLED) :
    (manager_apply_mode ev mode s).mode ≠ MODE_DISABLED := by
  unfold manager_apply_mode system_get_mode system_set_mode
  split_ifs <;> first | exact hs | exact hm

/-- Across any drain loop, no system ever acquires `MODE_DISABLED`. -/
theorem run_events_ne_disabled (rname : Option Nat → String) (events : List Event) :
    ∀ (running : Bool) (systems : List SystemC),
      (∀ s ∈ systems, s.mode ≠ MODE_DISABLED) →
      ∀ s ∈ (manager_run_events rname running systems events).2, s.mode ≠ MODE_DISABLED := by
  induction events with
  | nil => intro running systems hall; exact hall
  | cons ev rest ih =>
    intro running systems hall
    rw [manager_run_events]
    by_cases hr : running = true
    · rw [if_pos hr]
      apply ih
      intro s hs
      simp only [manager_step] at hs
      split at hs
      · exact hall s hs
      · obtain ⟨t, ht, rfl⟩ := List.mem_map.mp hs
        exact apply_mode_ne_disabled ev _ t (decide_ne_disabled rname ev) (hall t ht)
    · rw [if_neg hr]
      exact hall

/-- A cycle started in `MODE_TERMINATE` (with the data model's positive
`input_amount`) exits the input loop immediately with a nonzero residual,
so the processing step is never reached and no delay is simulated. -/
theorem terminated_cycle_no_processing (fuel : Nat) (sys : SystemC) (store : List Resource)
    (hm : sys.mode = MODE_TERMINATE) (hpos : 0 < sys.recipe.input_amount) :
    (system_run fuel sys store).processed = false ∧
    (system_run fuel sys store).delay = none := by
  have hg : ¬(0 < sys.recipe.input_amount ∧ system_get_mode sys ≠ MODE_TERMINATE) := by
    simp [system_get_mode, hm]
  have hinp := input_loop_guard_false sys fuel store sys.recipe.input_amount hg
  have hne : ¬(sys.recipe.input_amount = 0) := by omega
  constructor
  · simp [system_run, hinp, apply_ite CycleResult.processed, hne]
  · simp [system_run, hinp, apply_ite CycleResult.delay, hne]

/-- **C8** — Processing-delay scaling by mode: the simulated delay is the
recipe's `processing_time` times 4 in `Slow` mode, divided by 4 (C
truncating division) in `Fast` mode, and unchanged in `Standard` mode.
A `Terminate` actor never reaches the processing step of a cycle (its
input pull stops at once with a positive residual), and no actor is ever
in `Disabled` mode: `system_create` starts every actor in `Standard` and
no coordinator decision ever assigns `Disabled`, so the `Disabled` case
of the claim is unreachable. -/
theorem processing_delay_scaling (sys : SystemC) (fuel : Nat) (store : List Resource)
    (rname : Option Nat → String) (running : Bool) (systems : List SystemC)
    (events : List Event) (nm : String) (rc : Recipe) :
    (sys.mode = MODE_SLOW →
      system_simulate_process_time sys = sys.recipe.processing_time * 4) ∧
    (sys.mode = MODE_FAST →
      system_simulate_process_time sys = Int.tdiv sys.recipe.processing_time 4) ∧
    (sys.mode = MODE_STANDARD →
      system_simulate_process_time sys = sys.recipe.processing_time) ∧
    (sys.mode = MODE_TERMINATE → 0 < sys.recipe.input_amount →
      (system_run fuel sys store).processed = false ∧
      (system_run fuel sys store).delay = none) ∧
    ((∀ s ∈ systems, s.mode ≠ MODE_DISABLED) →
      ∀ s ∈ (manager_run_events rname running systems events).2, s.mode ≠ MODE_DISABLED) ∧
    (system_create nm rc).mode ≠ MODE_DISABLED := by
  refine ⟨?_, ?_, ?_, ?_, ?_, ?_⟩
  · intro hm
    unfold system_simulate_process_time
    rw [if_pos hm]
  · intro hm
    unfold system_simulate_process_time
    rw [if_neg (by rw [hm]; decide), if_pos hm]
  · intro hm
    unfold system_simulate_process_time
    rw [if_neg (by rw [hm]; decide), if_neg (by rw [hm]; decide)]
  · intro hm hpos
    exact terminated_cycle_no_processing fuel sys store hm hpos
  · exact run_events_ne_disabled rname events running systems
  · show MODE_STANDARD ≠ MODE_DISABLED
    decide

/-- Witness for C8 at concrete systems: Propulsion's 500-time recipe is
slowed to 2000, sped up to 125, left at 500, and a terminated Propulsion
cycle does not process. -/
theorem processing_delay_scaling_check :
    system_simulate_process_time (system_set_mode propulsion0 MODE_SLOW) = 2000 ∧
    system_simulate_process_time (system_set_mode propulsion0 MODE_FAST) = 125 ∧
    system_simulate_process_time propulsion0 = 500 ∧
    (system_run 3 (system_set_mode propulsion0 MODE_TERMINATE) store0).processed = false := by
  refine ⟨?_, ?_, ?_, ?_⟩
  · have h := (processing_delay_scaling (system_set_mode propulsion0 MODE_SLOW) 3 store0
      rname0 true [] [] "w" propulsion0.recipe).1 rfl
    rw [h]; decide
  · have h := (processing_delay_scaling (system_set_mode propulsion0 MODE_FAST) 3 store0
      rname0 true [] [] "w" propulsion0.recipe).2.1 rfl
    rw [h]; decide
  · have h := (processing_delay_scaling propulsion0 3 store0
      rname0 true [] [] "w" propulsion0.recipe).2.2.1 rfl
    rw [h]; decide
  · exact ((processing_delay_scaling (system_set_mode propulsion0 MODE_TERMINATE) 3 store0
      rname0 true [] [] "w" propulsion0.recipe).2.2.2.1 rfl (by decide)).1

end CUinSpace
